import Mathlib

/-!
Shallow embedding of the spreadsheet ingestion engine of the vitalsapi
repository (`app/utils/excel_parser.py`), together with proofs that settle
the specification claims about it.

Modelling conventions:
* Cell values are `Val`: `null` models Python `None` and pandas `NaN`;
  `num` models int/float cells (a float `NaN` cell is `null`); `date` models
  `pd.Timestamp`/`datetime`/`datetime.date` values as an abstract day ordinal;
  `str` models strings.
* Python dicts keyed by column name are association lists with Python dict
  semantics (first-insertion key order, later assignment overwrites in place).
* `pd.to_datetime(s, dayfirst=True)` is an external library call; the whole
  pipeline is parameterised by `pdate : String → Option Int`, its abstract
  behaviour (`none` models a parse failure, which the source turns into
  `None`).
* Case operations model Python's `str.upper`/`str.lower`/`str.title`/
  `str.strip` on the basic-latin range, which is all the engine's
  vocabulary tables use.
* The rendering of a date value by Python `str()` is abstracted as a
  non-empty single word (`date#k`); no claim depends on its exact text.
* A worksheet is a raw cell grid `Grid`; a workbook carries an `openable`
  flag (false models bytes that `pd.ExcelFile` rejects) and one
  `Option Grid` per sheet (`none` models a sheet whose read raises, which
  the source catches and skips).
-/

/-- A cell or record value. -/
inductive Val where
  | null : Val
  | num : Int → Val
  | date : Int → Val
  | str : String → Val
deriving DecidableEq

/-- Python truthiness of a value (`if value:`). -/
def Val.truthy : Val → Bool
  | .null => false
  | .num n => n != 0
  | .date _ => true
  | .str s => !s.data.isEmpty

/-- Python `str()` / pandas `astype(str)` on a cell value.  `str(nan)` is
`"nan"`; ints print in decimal; the text of a date object is abstracted. -/
def pyStr : Val → String
  | .null => "nan"
  | .num n => toString n
  | .date d => "date#" ++ toString d
  | .str s => s

/-- Python `s.lower()` (basic-latin). -/
def lowerS (s : String) : String := ⟨s.data.map Char.toLower⟩

/-- Python `s.upper()` (basic-latin). -/
def upperS (s : String) : String := ⟨s.data.map Char.toUpper⟩

/-- Python `s.strip()` on a character list. -/
def stripL (l : List Char) : List Char :=
  ((l.dropWhile Char.isWhitespace).reverse.dropWhile Char.isWhitespace).reverse

/-- Python `s.strip()`. -/
def stripS (s : String) : String := ⟨stripL s.data⟩

/-- Helper for `titleS`: the flag records whether the previous character was
alphabetic (cased). -/
def titleAux : Bool → List Char → List Char
  | _, [] => []
  | prev, c :: cs => (if prev then c.toLower else c.toUpper) :: titleAux c.isAlpha cs

/-- Python `s.title()` (basic-latin). -/
def titleS (s : String) : String := ⟨titleAux false s.data⟩

/-- Does `l` start with `p`? -/
def startsL : List Char → List Char → Bool
  | [], _ => true
  | _ :: _, [] => false
  | p :: ps, c :: cs => p == c && startsL ps cs

/-- Python `s.startswith(pat)`. -/
def startsS (s pat : String) : Bool := startsL pat.data s.data

/-- Does `pat` occur inside `l`? -/
def containsL (pat : List Char) : List Char → Bool
  | [] => startsL pat []
  | c :: cs => startsL pat (c :: cs) || containsL pat cs

/-- Python `pat in s`. -/
def containsS (s pat : String) : Bool := containsL pat.data s.data

/-- Python `len(s)` (character count). -/
def lengthS (s : String) : Nat := s.data.length

/-- Python `s.isdigit()` (non-empty, all digits). -/
def isDigitS (s : String) : Bool := !s.data.isEmpty && s.data.all Char.isDigit

/-- Python `len(s.split())`: number of maximal whitespace-free runs. -/
def wordsCount (l : List Char) : Nat :=
  (l.foldl (fun st c =>
    if c.isWhitespace then (st.1, false)
    else if st.2 then st else (st.1 + 1, true)) ((0 : Nat), false)).1

/-- Replace every occurrence of the character `c` by the character list `r`
(Python single-character `str.replace`). -/
def replCh (c : Char) (r : List Char) (l : List Char) : List Char :=
  l.foldr (fun a acc => if a == c then r ++ acc else a :: acc) []

/-- A parsed-record dict: association list with Python dict semantics. -/
abbrev Record := List (String × Val)

/-- Model of `record.get(k)` distinguishing a missing key from a stored `None`:
the value at the first (unique, for dicts) occurrence of the key. -/
def lookupR (r : Record) (k : String) : Option Val :=
  match r with
  | [] => none
  | p :: t => if p.1 = k then some p.2 else lookupR t k

/-- Model of `record.get(k)`: a missing key and a stored `None` both give `null`. -/
def dgetR (r : Record) (k : String) : Val := (lookupR r k).getD .null

/-- Model of `record[k] = v` for a key already present (updates in place). -/
def dsetR (r : Record) (k : String) (v : Val) : Record :=
  r.map (fun p => if p.1 = k then (k, v) else p)

/-- The dict's key list, in insertion order. -/
def keysR (r : Record) : List String := r.map (·.1)

/-- Model of `d[k] = v` for a possibly-new key (Python dict assignment). -/
def dinsR (r : Record) (k : String) (v : Val) : Record :=
  if r.any (fun p => p.1 == k) then dsetR r k v else r ++ [(k, v)]

/-- Model of `row.to_dict()`: build a dict from column labels to the row's values
(later duplicate labels overwrite, first occurrence keeps the key slot). -/
def rowToDict (ls : List String) (row : List Val) : Record :=
  (ls.zip row).foldl (fun d p => dinsR d p.1 p.2) []

/-! ## Record validation and cleaning (`validate_and_clean_record`) -/

/-- Null normalization (source lines 384-389): `pd.isna`, the literal string
`"nan"`, and strings blank after stripping all become `None`.  `str(v).strip()`
of a number or date is never empty. -/
def nullNorm (v : Val) : Val :=
  match v with
  | .str s => if s = "nan" ∨ stripS s = "" then .null else .str s
  | v => v

/-- The four date fields (source line 392). -/
def dateFields : List String :=
  ["record_date", "admission_date", "discharge_date", "date_of_birth"]

/-- The five text fields (source line 405). -/
def textFields : List String :=
  ["gender", "mode_of_delivery", "child_name", "father_name", "mother_name"]

/-- Source lines 395-402: a string is fed to `pd.to_datetime(..., dayfirst=True)`
(`.null` on failure), a Timestamp/datetime becomes its `.date()`, and any other
value — in particular an int or float — falls through both `isinstance` checks
unchanged. -/
def dateClean (pdate : String → Option Int) : Val → Val
  | .str s =>
    match pdate s with
    | some d => .date d
    | none => .null
  | .date d => .date d
  | v => v

/-- One iteration of the date-field loop (source lines 393-402). -/
def dateStep (pdate : String → Option Int) (r : Record) (f : String) : Record :=
  match lookupR r f with
  | some v => if v = .null then r else dsetR r f (dateClean pdate v)
  | none => r

/-- One iteration of the text-field loop (source lines 406-411):
`str(value).strip().title()`, then `father_name` is nulled when it starts with
`unnamed` (case-insensitively) or is shorter than 2 characters. -/
def textStep (r : Record) (f : String) : Record :=
  match lookupR r f with
  | some v =>
    if v = .null then r
    else if f = "father_name" ∧ (startsS (lowerS (titleS (stripS (pyStr v)))) "unnamed" = true
            ∨ lengthS (titleS (stripS (pyStr v))) < 2)
    then dsetR r f .null
    else dsetR r f (.str (titleS (stripS (pyStr v))))
  | none => r

/-- Identifier cleaning (source lines 414-418): `str(value).strip()`. -/
def idStep (r : Record) (f : String) : Record :=
  match lookupR r f with
  | some v => if v = .null then r else dsetR r f (.str (stripS (pyStr v)))
  | none => r

/-- Gender validation (source lines 421-431).  The non-string arm is
unreachable for pipeline inputs: a present non-null gender was already
string-ified by the text-field loop. -/
def genderStep (r : Record) : Record :=
  match dgetR r "gender" with
  | .str s =>
    if s.data = [] then r
    else if upperS s = "M" ∨ upperS s = "MALE" then dsetR r "gender" (.str "Male")
    else if upperS s = "F" ∨ upperS s = "FEMALE" then dsetR r "gender" (.str "Female")
    else if upperS s = "OTHER" then dsetR r "gender" (.str "Other")
    else dsetR r "gender" .null
  | _ => r

/-- Model of `validate_and_clean_record` (source lines 378-437).  The function's
`except` clause is unreachable (every step is total), so the model is total. -/
def validateAndCleanRecord (pdate : String → Option Int) (r : Record) : Record :=
  let r1 := r.map (fun p => (p.1, nullNorm p.2))
  let r2 := dateFields.foldl (dateStep pdate) r1
  let r3 := textFields.foldl textStep r2
  let r4 := idStep (idStep r3 "ip_number") "birth_notification_no"
  genderStep r4

/-- First loop of `is_record_complete` (source lines 444-448): the field must
be truthy and, when a string, non-blank after stripping. -/
def isBlankStr : Val → Bool
  | .str s => stripS s = ""
  | _ => false

def reqOk (r : Record) (f : String) : Bool :=
  (dgetR r f).truthy && !(isBlankStr (dgetR r f))

/-- Minimum-length checks of `is_record_complete` (source lines 451-484):
when the field is truthy, `len(str(value).strip())` must reach `n`. -/
def lenOk (r : Record) (f : String) (n : Nat) : Bool :=
  if (dgetR r f).truthy = true then !(lengthS (stripS (pyStr (dgetR r f))) < n) else true

/-- Model of `is_record_complete` (source lines 440-487).  Note that `ip_number` is
never examined. -/
def isRecordComplete (r : Record) : Bool :=
  reqOk r "child_name" && reqOk r "birth_notification_no" && reqOk r "mother_name"
    && lenOk r "birth_notification_no" 4 && lenOk r "mother_name" 2
    && lenOk r "child_name" 2

/-! ## Header resolution (`parse_excel_file` methods 1-3, `detect_and_parse_data`) -/

/-- A raw worksheet grid. -/
abbrev Grid := List (List Val)

/-- Number of columns of the pandas frame built from a grid. -/
def gridWidth (g : Grid) : Nat := g.foldl (fun m r => max m r.length) 0

/-- Pandas pads ragged rows with `NaN` to the frame width. -/
def rectify (g : Grid) : Grid :=
  g.map (fun r => r ++ List.replicate (gridWidth g - r.length) Val.null)

/-- An intermediate tabular frame: column labels (still raw values), data
rows, and the parsing-method tag the source logs. -/
structure Frame where
  labels : List Val
  rows : Grid
  method : String
deriving DecidableEq

/-- Column label produced by `pd.read_excel(header=k)` from a header cell:
an empty cell becomes the placeholder `Unnamed: i`, other values keep their
type. -/
def labelOfCell (p : Nat × Val) : Val :=
  match p.2 with
  | .null => .str ("Unnamed: " ++ toString p.1)
  | v => v

/-- The labels `read_excel(header=k)` derives from a header row. -/
def headerLabels (row : List Val) : List Val := row.enum.map labelOfCell

/-- One test of `has_meaningful_headers` (source line 133): a string label,
longer than 2 characters after stripping, not containing `unnamed`
case-insensitively. -/
def meaningfulLabel : Val → Bool
  | .str s => lengthS (stripS s) > 2 && !containsS (lowerS s) "unnamed"
  | _ => false

/-- Model of `has_meaningful_headers` (source lines 129-135): at least 3 meaningful
labels. -/
def hasMeaningfulHeaders (ls : List Val) : Bool :=
  (ls.countP meaningfulLabel) ≥ 3

/-- Model of `pd.read_excel(header=k)` on a grid: labels from row `k`, data below it;
`none` when row `k` does not exist (the read raises and the attempt fails). -/
def readHeaderAt (k : Nat) (g : Grid) : Option (List Val × Grid) :=
  match g.drop k with
  | [] => none
  | hrow :: rest => some (headerLabels hrow, rest)

/-- Methods 1 and 3 of `parse_excel_file` (source lines 44-49, 65-74): accept
row `k` as header when the resulting frame is non-empty and its labels are
meaningful. -/
def tryHeaderRowK (g : Grid) (k : Nat) : Option Frame :=
  match readHeaderAt k g with
  | some (ls, data) =>
    if !data.isEmpty && hasMeaningfulHeaders ls
    then some ⟨ls, data, "header_row_" ++ toString k⟩ else none
  | none => none

/-- Count of date-typed cells in a row (source lines 145, 179). -/
def countDates (row : List Val) : Nat :=
  row.countP (fun v => match v with | .date _ => true | _ => false)

/-- Count of numeric non-NaN cells in a row (source lines 146, 180). -/
def countNums (row : List Val) : Nat :=
  row.countP (fun v => match v with | .num _ => true | _ => false)

/-- Count of text cells longer than 2 characters after stripping
(source line 176). -/
def countTexts (row : List Val) : Nat :=
  row.countP (fun v => match v with | .str s => lengthS (stripS s) > 2 | _ => false)

/-- Count of non-null cells in a row (`iloc[idx].count()`, source line 203). -/
def countNonNull (row : List Val) : Nat := row.countP (fun v => v != Val.null)

/-- The canonical 11-field order (source lines 22-34 and its copies). -/
def expectedColumns : List String :=
  ["record_date", "ip_number", "mother_name", "admission_date", "discharge_date",
   "date_of_birth", "gender", "mode_of_delivery", "child_name", "father_name",
   "birth_notification_no"]

/-- Canonical labels for a `w`-column frame, padding columns beyond the 11th
with synthetic names (source lines 161-165). -/
def canonPad (w : Nat) : List Val :=
  (expectedColumns.take w
    ++ ((List.range w).drop (min w 11)).map (fun i => "extra_column_" ++ toString i)).map Val.str

/-- Method B of `detect_and_parse_data` (source lines 174-190): first row
among rows 0-4 with ≥4 text cells, ≤1 date and ≤2 numbers whose remainder is
non-empty; its raw values become the labels. -/
def methodBFind (g : Grid) : Option (Nat × List Val × Grid) :=
  (List.range (min 5 g.length)).findSome? (fun idx =>
    match g.drop idx with
    | [] => none
    | row :: rest =>
      if countTexts row ≥ 4 && countDates row ≤ 1 && countNums row ≤ 2 && !rest.isEmpty
      then some (idx, row, rest) else none)

/-- Method C of `detect_and_parse_data` (source lines 193-215): with ≥8
columns, start from the first of rows 0-4 holding ≥5 non-null cells (0 when
none does) and assign the canonical prefix of names.  With more than 11
columns the unpadded name list mismatches the column count and the pandas
assignment raises, so the whole of method 2 fails. -/
def methodC (g : Grid) : Option Frame :=
  if gridWidth g ≥ 8 then
    if gridWidth g ≤ 11 then
      let start :=
        ((List.range (min 5 g.length)).find? (fun idx => countNonNull (g.getD idx []) ≥ 5)).getD 0
      some ⟨(expectedColumns.take (gridWidth g)).map Val.str, g.drop start,
            "assumed_headers_from_row_" ++ toString start⟩
    else none
  else none

/-- Model of `detect_and_parse_data` (source lines 138-217): method A (row 0 is data
when it holds ≥2 dates and ≥1 number), then method B, then method C. -/
def detectAndParseData (g : Grid) : Option Frame :=
  match g with
  | [] => methodC []
  | r0 :: _ =>
    if countDates r0 ≥ 2 && countNums r0 ≥ 1 then
      some ⟨canonPad (gridWidth g), g, "data_as_first_row"⟩
    else
      match methodBFind g with
      | some (idx, row, rest) => some ⟨row, rest, "detected_headers_row_" ++ toString idx⟩
      | none => methodC g

/-- The ordered header-resolution strategy of `parse_excel_file`
(source lines 43-74): row 0 as header, then `detect_and_parse_data`, then
header rows 1-3. -/
def headerResolve (g : Grid) : Option Frame :=
  match tryHeaderRowK g 0 with
  | some fr => some fr
  | none =>
    match detectAndParseData g with
    | some fr => some fr
    | none => [1, 2, 3].findSome? (tryHeaderRowK g)

/-! ## Column normalization (`clean_and_standardize_dataframe`) -/

/-- Label text normalization (source lines 231-233): strip, lowercase, spaces
to underscores, quote characters removed. -/
def normalizeLabel (s : String) : String :=
  ⟨replCh '"' [] (replCh '\'' [] (replCh ' ' ['_'] (lowerS (stripS s)).data))⟩

/-- The `COLUMN_MAPPING` synonym table (source lines 236-293); unmapped labels
are kept (`df.rename` semantics). -/
def applySynonym (l : String) : String :=
  match l with
  | "date" => "record_date"
  | "record_date" => "record_date"
  | "date_recorded" => "record_date"
  | "ip_no" => "ip_number"
  | "ip._no" => "ip_number"
  | "ip_number" => "ip_number"
  | "ip_no." => "ip_number"
  | "ipno" => "ip_number"
  | "mother_name" => "mother_name"
  | "mothers_name" => "mother_name"
  | "mother" => "mother_name"
  | "admission_date" => "admission_date"
  | "date_of_admission" => "admission_date"
  | "admitted_date" => "admission_date"
  | "discharge_date" => "discharge_date"
  | "date_of_discharge" => "discharge_date"
  | "discharged_date" => "discharge_date"
  | "date_of_birth" => "date_of_birth"
  | "birth_date" => "date_of_birth"
  | "dob" => "date_of_birth"
  | "gender" => "gender"
  | "sex" => "gender"
  | "mode_of_delivery" => "mode_of_delivery"
  | "delivery_mode" => "mode_of_delivery"
  | "delivery_method" => "mode_of_delivery"
  | "child_name" => "child_name"
  | "childs_name" => "child_name"
  | "baby_name" => "child_name"
  | "child" => "child_name"
  | "father_name" => "father_name"
  | "fathers_name" => "father_name"
  | "father" => "father_name"
  | "birth_notification_no" => "birth_notification_no"
  | "notification_no" => "birth_notification_no"
  | "birth_notification" => "birth_notification_no"
  | "notification_number" => "birth_notification_no"
  | "birth_notification_number" => "birth_notification_no"
  | other => other

/-- The six required fields checked before positional mapping
(source line 299). -/
def requiredFields : List String :=
  ["record_date", "ip_number", "mother_name", "date_of_birth", "child_name",
   "birth_notification_no"]

/-- Non-meaningful-header test (source lines 303-304).  After the
`astype(str)` cast of line 231 no label is a Timestamp, and after the
lowercasing of line 232 no label starts with capital `Unnamed`; the live part
of the test is `str(col).isdigit()`.  The dead capital-U test is kept as
written. -/
def nonMeaningfulHeaders (ls : List String) : Bool :=
  ls.any (fun l => startsS l "Unnamed" || isDigitS l)

/-- Model of the `position_mapping` lookup: the source builds a dict literal keyed by the
existing labels of the first 11 columns, so a duplicated label keeps only its
last (right-most) canonical assignment. -/
def posLookup (ps : List (String × String)) (l : String) : String :=
  match ps.reverse.find? (fun p => p.1 == l) with
  | some p => p.2
  | none => l

/-- The positional rename of source lines 314-329: every column whose label
is a key of the dict is renamed. -/
def posRename (ls : List String) : List String :=
  ls.map (posLookup ((ls.take 11).zip expectedColumns))

/-- Delivery-mode keywords of the content sniffing tier (source line 350). -/
def deliveryWords : List String :=
  ["caeser", "normal", "section", "delivery", "vacuum", "forceps", "breech"]

/-- Model of the per-column rename call of the sniffing tier: renames every
column currently labelled `old` to `tgt`. -/
def renameAll (cur : List String) (old tgt : String) : List String :=
  cur.map (fun l => if l == old then tgt else l)

/-- Model of the sample extraction of source line 343: the first 3 cells of
column `idx`, dropping nulls, string-cast and lowercased. -/
def sampleVals (rows : Grid) (idx : Nat) : List String :=
  (((rows.take 3).map (fun r => r.getD idx Val.null)).filter
    (fun v => v != Val.null)).map (fun v => lowerS (pyStr v))

/-- One iteration of the content-sniffing loop (source lines 341-367),
dispatching on the column's original label `p.2` while renaming the current
label list. -/
def sniffStep (rows : Grid) (cur : List String) (p : Nat × String) : List String :=
  let idx := p.1
  let col := p.2
  if col ∈ expectedColumns then cur
  else
    let sample := sampleVals rows idx
    if sample.any (fun v => v ∈ (["male", "female", "m", "f", "other"] : List String)) then
      renameAll cur col "gender"
    else if sample.any (fun v => deliveryWords.any (fun w => containsS v w)) then
      renameAll cur col "mode_of_delivery"
    else if sample.any (fun v => wordsCount v.data ≥ 2) then
      if col != "mother_name" && col != "child_name" && col != "father_name" then
        if "mother_name" ∉ cur then renameAll cur col "mother_name"
        else if "child_name" ∉ cur then renameAll cur col "child_name"
        else if "father_name" ∉ cur then renameAll cur col "father_name"
        else cur
      else cur
    else if sample.any (fun v => lengthS v ≥ 4 && isDigitS v) then
      if "birth_notification_no" ∉ cur then renameAll cur col "birth_notification_no" else cur
    else cur

/-- The content-sniffing tier: fold over the columns as they stand when the
loop starts (the loop enumerates `df.columns` once, data is never renamed). -/
def sniffAll (rows : Grid) (ls : List String) : List String :=
  ls.enum.foldl (sniffStep rows) ls

/-- Model of `clean_and_standardize_dataframe` (source lines 220-375): cast and
normalize labels, synonym-map them, fall back to positional mapping when
required fields are missing or labels are non-meaningful (only with ≥11
columns; required fields still missing afterwards abort the frame), sniff
remaining unmapped columns from sample content, and drop all-null rows. -/
def cleanFrame (fr : Frame) : Option (List String × Grid) :=
  let ls1 := (fr.labels.map (fun v => normalizeLabel (pyStr v))).map applySynonym
  let step2 : Option (List String) :=
    if requiredFields.any (fun f => f ∉ ls1) || nonMeaningfulHeaders ls1 then
      if ls1.length ≥ 11 then
        let ls2 := posRename ls1
        if requiredFields.any (fun f => f ∉ ls2) then none else some ls2
      else some ls1
    else some ls1
  match step2 with
  | none => none
  | some ls2 =>
    let ls3 := sniffAll fr.rows ls2
    let rows := fr.rows.filter (fun r => r.any (fun v => v != Val.null))
    if rows.isEmpty then none else some (ls3, rows)

/-! ## Orchestration (`parse_excel_file`) -/

/-- Row conversion and the two gates of source lines 94-109: the cleaned dict
must be truthy (non-empty) and pass `is_record_complete`. -/
def rowEmit (pdate : String → Option Int) (ls : List String) (row : List Val) : Option Record :=
  if validateAndCleanRecord pdate (rowToDict ls row) ≠ []
      ∧ isRecordComplete (validateAndCleanRecord pdate (rowToDict ls row)) = true
  then some (validateAndCleanRecord pdate (rowToDict ls row)) else none

/-- Per-sheet processing (source lines 36-116).  `none` models a sheet whose
read raises: the exception is caught and the sheet skipped.  A sheet that
fails header resolution or cleaning contributes nothing. -/
def processSheet (pdate : String → Option Int) (sh : Option Grid) : List Record :=
  match sh with
  | none => []
  | some g0 =>
    let g := rectify g0
    match headerResolve g with
    | none => []
    | some fr =>
      match cleanFrame fr with
      | none => []
      | some (ls, rows) =>
        rows.foldl (fun acc row => acc ++ (rowEmit pdate ls row).toList) []

/-- A workbook: `openable = false` models bytes `pd.ExcelFile` rejects. -/
structure Workbook where
  openable : Bool
  sheets : List (Option Grid)

/-- Model of `parse_excel_file` (source lines 11-126): open the workbook, accumulate
per-sheet records in sheet order, and raise `ValueError` exactly when the
workbook cannot be opened or no sheet yields a record. -/
def parseExcelFile (pdate : String → Option Int) (wb : Workbook) : Except String (List Record) :=
  if !wb.openable then .error "Error parsing Excel file: cannot open workbook"
  else
    let all := wb.sheets.foldl (fun acc sh => acc ++ processSheet pdate sh) []
    if all.isEmpty then
      .error "Error parsing Excel file: No valid records found in any sheet of the Excel file"
    else .ok all

/-! ## Concrete instances used to settle the claims on explicit inputs -/

/-- A value that is either `None` or a string. -/
def strOrNull (v : Val) : Prop := v = .null ∨ ∃ s, v = .str s

/-- A date-parse stub: every string fails to parse (the claims below never
depend on a successful string parse unless stated). -/
def pdNone : String → Option Int := fun _ => none

/-- An 11-cell data row holding 3 dates and 1 number, with an empty
`ip_number` cell. -/
def c1Row : List Val :=
  [Val.date 1, Val.null, Val.str "Mary Smith", Val.date 2, Val.null,
   Val.date 3, Val.str "F", Val.str "Normal", Val.str "Baby Girl Smith",
   Val.null, Val.num 12345]

/-- A single-row, 11-column headerless sheet whose `ip_number` cell is empty:
row 0 holds 3 dates and 1 number, so it is treated as data with canonical
positional names. -/
def c1Grid : Grid := [c1Row]

/-- A workbook holding only `c1Grid`. -/
def c1Workbook : Workbook := ⟨true, [some c1Grid]⟩

/-- The single record the engine extracts from `c1Workbook`. -/
def c1Rec : Record :=
  [("record_date", Val.date 1), ("ip_number", Val.null),
   ("mother_name", Val.str "Mary Smith"), ("admission_date", Val.date 2),
   ("discharge_date", Val.null), ("date_of_birth", Val.date 3),
   ("gender", Val.str "Female"), ("mode_of_delivery", Val.str "Normal"),
   ("child_name", Val.str "Baby Girl Smith"), ("father_name", Val.null),
   ("birth_notification_no", Val.str "12345")]

/-- A raw row dict whose record date (day 5) precedes its birth date (day 9). -/
def c2Rec : Record := [("record_date", Val.date 5), ("date_of_birth", Val.date 9)]

/-- A sheet whose row 0 holds 2 dates and 1 number but also 3 meaningful text
cells, with a data row below. -/
def c5Grid : Grid :=
  [[Val.date 10, Val.date 20, Val.num 7, Val.str "Mary Jane",
    Val.str "John Smith", Val.str "Baby Boy"],
   [Val.date 11, Val.date 21, Val.num 8, Val.str "Ann Lee",
    Val.str "Tom Lee", Val.str "Baby Lee"]]

/-- An 11-column frame whose 3rd and 10th columns carry the same label `x`
and whose labels map none of the required fields. -/
def c7Frame : Frame :=
  ⟨["a", "b", "x", "d", "e", "f", "g", "h", "i", "x", "k"].map Val.str,
   [[Val.str "v0", Val.str "v1", Val.str "Mary Smith", Val.str "v3",
     Val.str "v4", Val.str "v5", Val.str "v6", Val.str "v7",
     Val.str "Baby Smith", Val.str "v9", Val.str "99999"]],
   "header_row_0"⟩

/-- A 4-column sheet with a meaningful header row: three recognised columns
and one unmapped extra column. -/
def c8Grid : Grid :=
  [[Val.str "Child Name", Val.str "Mothers Name", Val.str "Notification No",
    Val.str "Random Stuff Col"],
   [Val.str "Baby Boy Smith", Val.str "Mary Smith", Val.str "56789", Val.str "zzz"]]

/-- A workbook holding only `c8Grid`. -/
def c8Workbook : Workbook := ⟨true, [some c8Grid]⟩

/-- The single record the engine extracts from `c8Workbook`: its keys mirror
the sheet's four columns. -/
def c8Rec : Record :=
  [("child_name", Val.str "Baby Boy Smith"), ("mother_name", Val.str "Mary Smith"),
   ("birth_notification_no", Val.str "56789"), ("random_stuff_col", Val.str "zzz")]

/-- Eleven digit-labelled columns, as arise when a header-less frame keeps
pandas' numeric labels. -/
def c7wLabels : List Val :=
  ["0", "1", "2", "3", "4", "5", "6", "7", "8", "9", "10"].map Val.str

/-- One 11-cell data row for the digit-labelled frame. -/
def c7wRows : Grid :=
  [[Val.str "a0", Val.str "a1", Val.str "Mary W Smith", Val.str "a3", Val.str "a4",
    Val.str "a5", Val.str "a6", Val.str "a7", Val.str "a8", Val.str "a9", Val.str "a10"]]

/-! ## General lemmas: characters, case operations, dict operations -/

theorem char_toNat_ofNat (n : Nat) (h : n.isValidChar) : (Char.ofNat n).toNat = n := by
  rw [Char.ofNat, dif_pos h]
  simp [Char.ofNatAux, Char.toNat, UInt32.toNat]

theorem toUpper_toLower (c : Char) : (c.toLower).toUpper = c.toUpper := by
  simp only [Char.toLower, Char.toUpper]
  by_cases h : c.toNat ≥ 65 ∧ c.toNat ≤ 90
  · have hv : (c.toNat + 32).isValidChar := Or.inl (by omega)
    have h32 : c.toNat + 32 - 32 = c.toNat := by omega
    simp only [if_pos h, char_toNat_ofNat _ hv,
      if_pos (show c.toNat + 32 ≥ 97 ∧ c.toNat + 32 ≤ 122 by omega),
      if_neg (show ¬(c.toNat ≥ 97 ∧ c.toNat ≤ 122) by omega), h32, Char.ofNat_toNat]
  · simp only [if_neg h]

theorem toUpper_toUpper (c : Char) : (c.toUpper).toUpper = c.toUpper := by
  simp only [Char.toUpper]
  by_cases h : c.toNat ≥ 97 ∧ c.toNat ≤ 122
  · have hv : (c.toNat - 32).isValidChar := Or.inl (by omega)
    simp only [if_pos h, char_toNat_ofNat _ hv,
      if_neg (show ¬(c.toNat - 32 ≥ 97 ∧ c.toNat - 32 ≤ 122) by omega)]
  · simp only [if_neg h]

theorem titleAux_map_toUpper (b : Bool) (l : List Char) :
    (titleAux b l).map Char.toUpper = l.map Char.toUpper := by
  induction l generalizing b with
  | nil => simp [titleAux]
  | cons c cs ih =>
    simp only [titleAux, List.map_cons, ih]
    by_cases hb : b
    · simp [hb, toUpper_toLower]
    · simp [hb, toUpper_toUpper]

/-- Python `.title()` commutes with `.upper()`. -/
theorem upperS_titleS (s : String) : upperS (titleS s) = upperS s := by
  simp only [upperS, titleS, titleAux_map_toUpper]

theorem titleAux_length (b : Bool) (l : List Char) : (titleAux b l).length = l.length := by
  induction l generalizing b with
  | nil => rfl
  | cons c cs ih => simp [titleAux, ih]

theorem titleS_data_ne_nil (s : String) (h : s.data ≠ []) : (titleS s).data ≠ [] := by
  intro hc
  apply h
  have := titleAux_length false s.data
  rw [show (titleS s).data = titleAux false s.data from rfl] at hc
  rw [hc] at this
  exact List.eq_nil_of_length_eq_zero this.symm


theorem lookupR_mapval (r : Record) (f : Val → Val) (k : String) :
    lookupR (r.map (fun p => (p.1, f p.2))) k = (lookupR r k).map f := by
  induction r with
  | nil => rfl
  | cons p t ih =>
    simp only [List.map_cons, lookupR]
    by_cases h : p.1 = k
    · simp [h]
    · simp [h, ih]

theorem lookupR_dsetR_ne (r : Record) (k k' : String) (v : Val) (h : k' ≠ k) :
    lookupR (dsetR r k v) k' = lookupR r k' := by
  induction r with
  | nil => rfl
  | cons p t ih =>
    simp only [dsetR, List.map_cons, lookupR] at ih ⊢
    by_cases hp : p.1 = k
    · have hk : ¬ ((k, v).1 = k') := fun hh => h hh.symm
      have hpk' : ¬ (p.1 = k') := by rw [hp]; exact fun hh => h hh.symm
      rw [if_pos hp, if_neg hk, if_neg hpk']
      exact ih
    · rw [if_neg hp]
      by_cases hk : p.1 = k'
      · rw [if_pos hk, if_pos hk]
      · rw [if_neg hk, if_neg hk]
        exact ih

theorem lookupR_dsetR_of_some (r : Record) (k : String) (v w : Val)
    (h : lookupR r k = some w) : lookupR (dsetR r k v) k = some v := by
  induction r with
  | nil => simp [lookupR] at h
  | cons p t ih =>
    simp only [dsetR, List.map_cons]
    by_cases hp : p.1 = k
    · simp [lookupR, hp]
    · simp only [lookupR, hp, if_false] at h
      simp only [dsetR] at ih
      simp [lookupR, hp, ih h]

theorem keysR_dsetR (r : Record) (k : String) (v : Val) :
    keysR (dsetR r k v) = keysR r := by
  simp only [keysR, dsetR, List.map_map]
  apply List.map_congr_left
  intro p _
  by_cases h : p.1 = k
  · simp [h, Function.comp]
  · simp [h, Function.comp]

theorem mem_keys_of_lookup_some (r : Record) (k : String) (v : Val)
    (h : lookupR r k = some v) : k ∈ keysR r := by
  induction r with
  | nil => simp [lookupR] at h
  | cons p t ih =>
    simp only [keysR, List.map_cons, List.mem_cons]
    by_cases hp : p.1 = k
    · exact Or.inl hp.symm
    · simp only [lookupR, hp, if_false] at h
      exact Or.inr (by simpa [keysR] using ih h)

theorem lookup_of_dget_ne_null (r : Record) (k : String) (h : dgetR r k ≠ .null) :
    lookupR r k = some (dgetR r k) := by
  unfold dgetR at h ⊢
  cases hl : lookupR r k with
  | none => rw [hl] at h; exact absurd rfl h
  | some v => rfl

/-! ## Step-level lemmas about the cleaning pipeline -/

theorem dgetR_congr (r r' : Record) (k : String)
    (h : lookupR r k = lookupR r' k) : dgetR r k = dgetR r' k := by
  unfold dgetR
  rw [h]

theorem dateStep_pres (pdate : String → Option Int) (r : Record) (f f' : String)
    (h : f' ≠ f) : lookupR (dateStep pdate r f) f' = lookupR r f' := by
  unfold dateStep
  cases lookupR r f with
  | none => rfl
  | some v =>
    dsimp only
    by_cases hv : v = .null
    · rw [if_pos hv]
    · rw [if_neg hv]
      exact lookupR_dsetR_ne r f f' _ h

theorem textStep_pres (r : Record) (f f' : String) (h : f' ≠ f) :
    lookupR (textStep r f) f' = lookupR r f' := by
  unfold textStep
  cases lookupR r f with
  | none => rfl
  | some v =>
    dsimp only
    by_cases hv : v = .null
    · rw [if_pos hv]
    · rw [if_neg hv]
      by_cases hc : f = "father_name" ∧ (startsS (lowerS (titleS (stripS (pyStr v)))) "unnamed" = true
          ∨ lengthS (titleS (stripS (pyStr v))) < 2)
      · rw [if_pos hc]
        exact lookupR_dsetR_ne r f f' _ h
      · rw [if_neg hc]
        exact lookupR_dsetR_ne r f f' _ h

theorem idStep_pres (r : Record) (f f' : String) (h : f' ≠ f) :
    lookupR (idStep r f) f' = lookupR r f' := by
  unfold idStep
  cases lookupR r f with
  | none => rfl
  | some v =>
    dsimp only
    by_cases hv : v = .null
    · rw [if_pos hv]
    · rw [if_neg hv]
      exact lookupR_dsetR_ne r f f' _ h

theorem genderStep_pres (r : Record) (f' : String) (h : f' ≠ "gender") :
    lookupR (genderStep r) f' = lookupR r f' := by
  unfold genderStep
  cases dgetR r "gender" with
  | str s =>
    dsimp only
    by_cases h0 : s.data = []
    · rw [if_pos h0]
    · rw [if_neg h0]
      by_cases h1 : upperS s = "M" ∨ upperS s = "MALE"
      · rw [if_pos h1]; exact lookupR_dsetR_ne r _ f' _ h
      · rw [if_neg h1]
        by_cases h2 : upperS s = "F" ∨ upperS s = "FEMALE"
        · rw [if_pos h2]; exact lookupR_dsetR_ne r _ f' _ h
        · rw [if_neg h2]
          by_cases h3 : upperS s = "OTHER"
          · rw [if_pos h3]; exact lookupR_dsetR_ne r _ f' _ h
          · rw [if_neg h3]; exact lookupR_dsetR_ne r _ f' _ h
  | null => rfl
  | num n => rfl
  | date d => rfl

theorem textStep_self (r : Record) (f : String) :
    strOrNull (dgetR (textStep r f) f) := by
  unfold textStep
  cases hl : lookupR r f with
  | none => left; simp [dgetR, hl]
  | some v =>
    dsimp only
    by_cases hv : v = .null
    · rw [if_pos hv]
      left
      simp [dgetR, hl, hv]
    · rw [if_neg hv]
      by_cases hc : f = "father_name" ∧ (startsS (lowerS (titleS (stripS (pyStr v)))) "unnamed" = true
          ∨ lengthS (titleS (stripS (pyStr v))) < 2)
      · rw [if_pos hc]
        left
        simp [dgetR, lookupR_dsetR_of_some r f _ v hl]
      · rw [if_neg hc]
        right
        refine ⟨titleS (stripS (pyStr v)), ?_⟩
        simp [dgetR, lookupR_dsetR_of_some r f _ v hl]

theorem idStep_self (r : Record) (f : String) :
    strOrNull (dgetR (idStep r f) f) := by
  unfold idStep
  cases hl : lookupR r f with
  | none => left; simp [dgetR, hl]
  | some v =>
    dsimp only
    by_cases hv : v = .null
    · rw [if_pos hv]
      left
      simp [dgetR, hl, hv]
    · rw [if_neg hv]
      right
      refine ⟨stripS (pyStr v), ?_⟩
      simp [dgetR, lookupR_dsetR_of_some r f _ v hl]

/-! ## Pipeline-level lemmas -/

theorem validate_child_strOrNull (pdate : String → Option Int) (r : Record) :
    strOrNull (dgetR (validateAndCleanRecord pdate r) "child_name") := by
  unfold validateAndCleanRecord
  simp only [textFields, List.foldl_cons, List.foldl_nil]
  unfold dgetR
  rw [genderStep_pres _ "child_name" (by decide),
      idStep_pres _ "birth_notification_no" "child_name" (by decide),
      idStep_pres _ "ip_number" "child_name" (by decide),
      textStep_pres _ "mother_name" "child_name" (by decide),
      textStep_pres _ "father_name" "child_name" (by decide)]
  exact textStep_self _ "child_name"

theorem validate_mother_strOrNull (pdate : String → Option Int) (r : Record) :
    strOrNull (dgetR (validateAndCleanRecord pdate r) "mother_name") := by
  unfold validateAndCleanRecord
  simp only [textFields, List.foldl_cons, List.foldl_nil]
  unfold dgetR
  rw [genderStep_pres _ "mother_name" (by decide),
      idStep_pres _ "birth_notification_no" "mother_name" (by decide),
      idStep_pres _ "ip_number" "mother_name" (by decide)]
  exact textStep_self _ "mother_name"

theorem validate_bno_strOrNull (pdate : String → Option Int) (r : Record) :
    strOrNull (dgetR (validateAndCleanRecord pdate r) "birth_notification_no") := by
  unfold validateAndCleanRecord
  simp only [textFields, List.foldl_cons, List.foldl_nil]
  unfold dgetR
  rw [genderStep_pres _ "birth_notification_no" (by decide)]
  exact idStep_self _ "birth_notification_no"

theorem complete_str_field (r : Record) (f : String) (n : Nat)
    (hreq : reqOk r f = true) (hlen : lenOk r f n = true)
    (hsn : strOrNull (dgetR r f)) :
    ∃ s, dgetR r f = .str s ∧ n ≤ lengthS (stripS s) := by
  rcases hsn with hnull | ⟨s, hs⟩
  · unfold reqOk at hreq
    rw [hnull] at hreq
    simp [Val.truthy] at hreq
  · refine ⟨s, hs, ?_⟩
    unfold lenOk at hlen
    unfold reqOk at hreq
    rw [hs] at hlen hreq
    simp only [Bool.and_eq_true] at hreq
    rw [if_pos hreq.1] at hlen
    simp only [Bool.not_eq_true', decide_eq_false_iff_not, pyStr] at hlen
    omega

theorem complete_parts (r : Record) (h : isRecordComplete r = true) :
    reqOk r "child_name" = true ∧ reqOk r "birth_notification_no" = true
      ∧ reqOk r "mother_name" = true ∧ lenOk r "birth_notification_no" 4 = true
      ∧ lenOk r "mother_name" 2 = true ∧ lenOk r "child_name" 2 = true := by
  unfold isRecordComplete at h
  simp only [Bool.and_eq_true] at h
  tauto

theorem rowEmit_some (pdate : String → Option Int) (ls : List String) (row : List Val)
    (r : Record) (h : rowEmit pdate ls row = some r) :
    r = validateAndCleanRecord pdate (rowToDict ls row) ∧ isRecordComplete r = true := by
  unfold rowEmit at h
  by_cases hc : validateAndCleanRecord pdate (rowToDict ls row) ≠ []
      ∧ isRecordComplete (validateAndCleanRecord pdate (rowToDict ls row)) = true
  · rw [if_pos hc] at h
    cases h
    exact ⟨rfl, hc.2⟩
  · rw [if_neg hc] at h
    cases h

/-- Every emitted record carries string values, at least 2 characters long
after stripping (4 for the notification number), in the three gate fields. -/
theorem emitted_fields (pdate : String → Option Int) (ls : List String) (row : List Val)
    (r : Record) (h : rowEmit pdate ls row = some r) :
    (∃ s, dgetR r "child_name" = .str s ∧ 2 ≤ lengthS (stripS s)) ∧
    (∃ s, dgetR r "mother_name" = .str s ∧ 2 ≤ lengthS (stripS s)) ∧
    (∃ s, dgetR r "birth_notification_no" = .str s ∧ 4 ≤ lengthS (stripS s)) := by
  obtain ⟨hv, hcomp⟩ := rowEmit_some pdate ls row r h
  obtain ⟨h1, h2, h3, h4, h5, h6⟩ := complete_parts r hcomp
  subst hv
  exact ⟨complete_str_field _ _ _ h1 h6 (validate_child_strOrNull pdate _),
    complete_str_field _ _ _ h3 h5 (validate_mother_strOrNull pdate _),
    complete_str_field _ _ _ h2 h4 (validate_bno_strOrNull pdate _)⟩

theorem foldl_append_eq_flatten {α β : Type} (f : α → List β) (l : List α) (a : List β) :
    l.foldl (fun acc x => acc ++ f x) a = a ++ (l.map f).flatten := by
  induction l generalizing a with
  | nil => simp
  | cons x t ih => simp [ih, List.append_assoc]

theorem mem_processSheet (pdate : String → Option Int) (sh : Option Grid) (r : Record)
    (h : r ∈ processSheet pdate sh) : ∃ ls row, rowEmit pdate ls row = some r := by
  unfold processSheet at h
  cases sh with
  | none => simp at h
  | some g0 =>
    dsimp only at h
    cases hh : headerResolve (rectify g0) with
    | none =>
      rw [hh] at h
      simp at h
    | some fr =>
      rw [hh] at h
      dsimp only at h
      cases hcf : cleanFrame fr with
      | none =>
        rw [hcf] at h
        simp at h
      | some p =>
        obtain ⟨ls, rows⟩ := p
        rw [hcf] at h
        dsimp only at h
        rw [foldl_append_eq_flatten (fun row => (rowEmit pdate ls row).toList) rows []] at h
        simp only [List.nil_append] at h
        rcases List.mem_flatten.1 h with ⟨l, hl, hrl⟩
        rcases List.mem_map.1 hl with ⟨row, hrowmem, hroweq⟩
        refine ⟨ls, row, ?_⟩
        rw [← hroweq] at hrl
        exact Option.mem_def.1 (Option.mem_toList.1 hrl)

theorem parse_ok_records (pdate : String → Option Int) (wb : Workbook) (rs : List Record)
    (h : parseExcelFile pdate wb = .ok rs) :
    rs = (wb.sheets.map (processSheet pdate)).flatten := by
  unfold parseExcelFile at h
  split at h
  · cases h
  · dsimp only at h
    split at h
    · cases h
    · cases h
      rw [foldl_append_eq_flatten]
      simp

theorem mem_parse (pdate : String → Option Int) (wb : Workbook) (rs : List Record)
    (r : Record) (h : parseExcelFile pdate wb = .ok rs) (hr : r ∈ rs) :
    ∃ ls row, rowEmit pdate ls row = some r := by
  rw [parse_ok_records pdate wb rs h] at hr
  rcases List.mem_flatten.1 hr with ⟨l, hl, hrl⟩
  rcases List.mem_map.1 hl with ⟨sh, hsh, hshl⟩
  exact mem_processSheet pdate sh r (hshl ▸ hrl)

theorem dateStep_self_of_some (pdate : String → Option Int) (r : Record) (f : String)
    (v : Val) (h : lookupR r f = some v) (hv : v ≠ .null) :
    lookupR (dateStep pdate r f) f = some (dateClean pdate v) := by
  unfold dateStep
  rw [h]
  dsimp only
  rw [if_neg hv]
  exact lookupR_dsetR_of_some r f _ v h

theorem textStep_self_of_some (r : Record) (f : String) (v : Val)
    (h : lookupR r f = some v) (hv : v ≠ .null) (hf : f ≠ "father_name") :
    lookupR (textStep r f) f = some (.str (titleS (stripS (pyStr v)))) := by
  unfold textStep
  rw [h]
  dsimp only
  rw [if_neg hv, if_neg (fun hc => hf hc.1)]
  exact lookupR_dsetR_of_some r f _ v h

theorem textStep_null_of (r : Record) (f : String) (h : lookupR r f = some .null) :
    textStep r f = r := by
  unfold textStep
  rw [h]
  dsimp only
  rw [if_pos rfl]

theorem genderStep_of_null (r : Record) (h : lookupR r "gender" = some Val.null) :
    genderStep r = r := by
  unfold genderStep
  have hd : dgetR r "gender" = Val.null := by unfold dgetR; rw [h]; rfl
  rw [hd]

theorem genderStep_of_str (r : Record) (t : String)
    (h : lookupR r "gender" = some (Val.str t)) (ht : t.data ≠ []) :
    genderStep r =
      (if upperS t = "M" ∨ upperS t = "MALE" then dsetR r "gender" (Val.str "Male")
      else if upperS t = "F" ∨ upperS t = "FEMALE" then dsetR r "gender" (Val.str "Female")
      else if upperS t = "OTHER" then dsetR r "gender" (Val.str "Other")
      else dsetR r "gender" Val.null) := by
  unfold genderStep
  have hd : dgetR r "gender" = Val.str t := by unfold dgetR; rw [h]; rfl
  rw [hd]
  dsimp only
  rw [if_neg ht]

theorem str_ne_empty_data (s : String) (h : s ≠ "") : s.data ≠ [] := by
  intro hc
  exact h (by cases s; simp_all)

theorem postDate_pres (r : Record) (f' : String)
    (h1 : f' ≠ "gender") (h2 : f' ≠ "mode_of_delivery") (h3 : f' ≠ "child_name")
    (h4 : f' ≠ "father_name") (h5 : f' ≠ "mother_name")
    (h6 : f' ≠ "ip_number") (h7 : f' ≠ "birth_notification_no") :
    lookupR (genderStep (idStep (idStep (textFields.foldl textStep r) "ip_number")
      "birth_notification_no")) f' = lookupR r f' := by
  simp only [textFields, List.foldl_cons, List.foldl_nil]
  rw [genderStep_pres _ _ h1,
      idStep_pres _ _ _ h7, idStep_pres _ _ _ h6,
      textStep_pres _ _ _ h5, textStep_pres _ _ _ h4, textStep_pres _ _ _ h3,
      textStep_pres _ _ _ h2, textStep_pres _ _ _ h1]

theorem dateFold_pres (pdate : String → Option Int) (r0 : Record) (f' : String)
    (h1 : f' ≠ "record_date") (h2 : f' ≠ "admission_date")
    (h3 : f' ≠ "discharge_date") (h4 : f' ≠ "date_of_birth") :
    lookupR (dateFields.foldl (dateStep pdate) r0) f' = lookupR r0 f' := by
  simp only [dateFields, List.foldl_cons, List.foldl_nil]
  rw [dateStep_pres _ _ _ _ h4, dateStep_pres _ _ _ _ h3,
      dateStep_pres _ _ _ _ h2, dateStep_pres _ _ _ _ h1]

theorem dateFold_lookup_fixed (pdate : String → Option Int) (r0 : Record) (f : String)
    (v : Val) (hf : f ∈ dateFields) (h : lookupR r0 f = some v) (hv : v ≠ .null)
    (hfix : dateClean pdate v = v) :
    lookupR (dateFields.foldl (dateStep pdate) r0) f = some v := by
  simp only [dateFields, List.mem_cons, List.not_mem_nil, or_false] at hf
  simp only [dateFields, List.foldl_cons, List.foldl_nil]
  rcases hf with rfl | rfl | rfl | rfl
  · rw [dateStep_pres _ _ _ _ (by decide), dateStep_pres _ _ _ _ (by decide),
        dateStep_pres _ _ _ _ (by decide),
        dateStep_self_of_some pdate _ _ _ h hv, hfix]
  · have e1 : lookupR (dateStep pdate r0 "record_date") "admission_date" = some v := by
      rw [dateStep_pres _ _ _ _ (by decide)]
      exact h
    rw [dateStep_pres _ _ _ _ (by decide), dateStep_pres _ _ _ _ (by decide),
        dateStep_self_of_some pdate _ _ _ e1 hv, hfix]
  · have e1 : lookupR (dateStep pdate r0 "record_date") "discharge_date" = some v := by
      rw [dateStep_pres _ _ _ _ (by decide)]
      exact h
    have e2 : lookupR (dateStep pdate (dateStep pdate r0 "record_date") "admission_date")
        "discharge_date" = some v := by
      rw [dateStep_pres _ _ _ _ (by decide)]
      exact e1
    rw [dateStep_pres _ _ _ _ (by decide),
        dateStep_self_of_some pdate _ _ _ e2 hv, hfix]
  · have e1 : lookupR (dateStep pdate r0 "record_date") "date_of_birth" = some v := by
      rw [dateStep_pres _ _ _ _ (by decide)]
      exact h
    have e2 : lookupR (dateStep pdate (dateStep pdate r0 "record_date") "admission_date")
        "date_of_birth" = some v := by
      rw [dateStep_pres _ _ _ _ (by decide)]
      exact e1
    have e3 : lookupR (dateStep pdate (dateStep pdate (dateStep pdate r0 "record_date")
        "admission_date") "discharge_date") "date_of_birth" = some v := by
      rw [dateStep_pres _ _ _ _ (by decide)]
      exact e2
    rw [dateStep_self_of_some pdate _ _ _ e3 hv, hfix]

/-! ## Claim theorems -/

/-- C1, amended: every record in the output of `parse_excel_file` has
`child_name`, `mother_name` and `birth_notification_no` non-null and non-empty
after trimming, with the names at least 2 characters and the notification
number at least 4 characters long; rows failing these checks are dropped.
(The claim's additional `ip_number` guarantee does not hold: the completeness
gate never examines `ip_number`; see the counterexample.) -/
theorem C1_emitted_required_fields (pdate : String → Option Int) (wb : Workbook)
    (rs : List Record) (r : Record)
    (hok : parseExcelFile pdate wb = .ok rs) (hr : r ∈ rs) :
    (∃ s, dgetR r "child_name" = .str s ∧ 2 ≤ lengthS (stripS s)) ∧
    (∃ s, dgetR r "mother_name" = .str s ∧ 2 ≤ lengthS (stripS s)) ∧
    (∃ s, dgetR r "birth_notification_no" = .str s ∧ 4 ≤ lengthS (stripS s)) := by
  rcases mem_parse pdate wb rs r hok hr with ⟨ls, row, hrow⟩
  exact emitted_fields pdate ls row r hrow

/-- C1, counterexample: the workbook `c1Workbook` yields exactly one record,
and that record's `ip_number` is null — refuting the claim that every emitted
record has a non-null `ip_number`. -/
theorem C1_counterexample :
    parseExcelFile pdNone c1Workbook = .ok [c1Rec] ∧ dgetR c1Rec "ip_number" = Val.null := by
  constructor
  · rfl
  · decide

/-- C1, witness: the amended theorem applied to the concrete workbook
`c1Workbook` and its single output record. -/
theorem C1_witness :
    (∃ s, dgetR c1Rec "child_name" = .str s ∧ 2 ≤ lengthS (stripS s)) ∧
    (∃ s, dgetR c1Rec "mother_name" = .str s ∧ 2 ≤ lengthS (stripS s)) ∧
    (∃ s, dgetR c1Rec "birth_notification_no" = .str s ∧ 4 ≤ lengthS (stripS s)) :=
  C1_emitted_required_fields pdNone c1Workbook [c1Rec] c1Rec rfl (by decide)

/-- C2, amended: `validate_and_clean_record` applies no cross-field date rule:
when both `record_date` and `date_of_birth` are date-typed and the record date
strictly precedes the birth date, the cleaned record keeps `date_of_birth`
unchanged (it is not nulled). -/
theorem C2_dob_kept (pdate : String → Option Int) (r : Record) (d b : Int)
    (hd : dgetR r "record_date" = Val.date d)
    (hb : dgetR r "date_of_birth" = Val.date b)
    (hlt : d < b) :
    dgetR (validateAndCleanRecord pdate r) "date_of_birth" = Val.date b := by
  have hbl : lookupR r "date_of_birth" = some (Val.date b) := by
    have hx := lookup_of_dget_ne_null r "date_of_birth" (by rw [hb]; simp)
    rw [hb] at hx
    exact hx
  have hl1 : lookupR (r.map (fun p => (p.1, nullNorm p.2))) "date_of_birth"
      = some (Val.date b) := by
    rw [lookupR_mapval, hbl]
    rfl
  unfold validateAndCleanRecord
  dsimp only
  unfold dgetR
  rw [postDate_pres _ _ (by decide) (by decide) (by decide) (by decide) (by decide)
        (by decide) (by decide),
      dateFold_lookup_fixed pdate _ _ (Val.date b) (by decide) hl1 (by simp) rfl]
  rfl

/-- C2, counterexample: for the raw row `c2Rec`, whose record date (day 5)
precedes its birth date (day 9), the cleaned record's `date_of_birth` is
day 9, not null — refuting the claimed cross-field nulling. -/
theorem C2_counterexample :
    (5 : Int) < 9 ∧
    dgetR (validateAndCleanRecord pdNone c2Rec) "date_of_birth" = Val.date 9 ∧
    Val.date 9 ≠ Val.null := by
  refine ⟨by norm_num, by decide, by decide⟩

/-- C2, witness: the amended theorem applied to the concrete row `c2Rec`. -/
theorem C2_witness :
    dgetR (validateAndCleanRecord pdNone c2Rec) "date_of_birth" = Val.date 9 :=
  C2_dob_kept pdNone c2Rec 5 9 (by decide) (by decide) (by norm_num)

/-- C9: the engine is a pure function of the workbook (two applications to the
same workbook are definitionally equal), and a successful run returns exactly
the concatenation, in sheet order, of the per-sheet record lists, each of
which lists records in row order. -/
theorem C9_deterministic_order (pdate : String → Option Int) (wb : Workbook)
    (rs : List Record) (hok : parseExcelFile pdate wb = .ok rs) :
    parseExcelFile pdate wb = parseExcelFile pdate wb ∧
    rs = (wb.sheets.map (processSheet pdate)).flatten :=
  ⟨rfl, parse_ok_records pdate wb rs hok⟩

/-- C9, witness: the order theorem applied to the concrete workbook
`c1Workbook`. -/
theorem C9_witness :
    parseExcelFile pdNone c1Workbook = parseExcelFile pdNone c1Workbook ∧
    [c1Rec] = (c1Workbook.sheets.map (processSheet pdNone)).flatten :=
  C9_deterministic_order pdNone c1Workbook [c1Rec] rfl

/-- C10: a non-null date-field value that is neither a string nor a
date/Timestamp — an int or float such as a raw Excel serial — passes through
`validate_and_clean_record` unchanged: it is neither parsed nor nulled. -/
theorem C10_numeric_date_passthrough (pdate : String → Option Int) (r : Record)
    (f : String) (n : Int) (hf : f ∈ dateFields) (h : dgetR r f = Val.num n) :
    dgetR (validateAndCleanRecord pdate r) f = Val.num n := by
  have hl : lookupR r f = some (Val.num n) := by
    have hx := lookup_of_dget_ne_null r f (by rw [h]; simp)
    rw [h] at hx
    exact hx
  have hl1 : lookupR (r.map (fun p => (p.1, nullNorm p.2))) f = some (Val.num n) := by
    rw [lookupR_mapval, hl]
    rfl
  unfold validateAndCleanRecord
  dsimp only
  unfold dgetR
  simp only [dateFields, List.mem_cons, List.not_mem_nil, or_false] at hf
  rcases hf with rfl | rfl | rfl | rfl
  all_goals
    rw [postDate_pres _ _ (by decide) (by decide) (by decide) (by decide) (by decide)
          (by decide) (by decide),
        dateFold_lookup_fixed pdate _ _ (Val.num n) (by decide) hl1 (by simp) rfl]
  all_goals rfl

/-- C10, witness: the passthrough theorem applied to a record whose
`record_date` holds the raw Excel serial number 45000. -/
theorem C10_witness :
    dgetR (validateAndCleanRecord pdNone [("record_date", Val.num 45000)]) "record_date"
      = Val.num 45000 :=
  C10_numeric_date_passthrough pdNone [("record_date", Val.num 45000)] "record_date" 45000
    (by decide) (by decide)

/-- C3: `parse_excel_file` raises (a `ValueError` with a human-readable
message) exactly when the workbook cannot be opened or every sheet yields zero
usable records; failures confined to one sheet (modelled by a `none` sheet or
a sheet contributing `[]`) never raise, and by `C9_deterministic_order` a
successful run still returns the remaining sheets' records. -/
theorem C3_fatal_iff (pdate : String → Option Int) (wb : Workbook) :
    (∃ msg, parseExcelFile pdate wb = .error msg) ↔
    (wb.openable = false ∨ ∀ sh ∈ wb.sheets, processSheet pdate sh = []) := by
  unfold parseExcelFile
  cases hb : wb.openable with
  | false =>
    rw [if_pos (show (!false) = true by decide)]
    constructor
    · intro _
      exact Or.inl rfl
    · intro _
      exact ⟨"Error parsing Excel file: cannot open workbook", rfl⟩
  | true =>
    rw [if_neg (show ¬((!true) = true) by decide)]
    dsimp only
    rw [foldl_append_eq_flatten (processSheet pdate) wb.sheets []]
    simp only [List.nil_append]
    by_cases he : ((wb.sheets.map (processSheet pdate)).flatten).isEmpty = true
    · rw [if_pos he]
      constructor
      · intro _
        right
        intro sh hsh
        have hnil := List.isEmpty_iff.1 he
        exact List.flatten_eq_nil_iff.1 hnil _ (List.mem_map_of_mem _ hsh)
      · intro _
        exact ⟨_, rfl⟩
    · rw [if_neg he]
      constructor
      · rintro ⟨msg, hmsg⟩
        cases hmsg
      · rintro (hopen | hall)
        · exact absurd hopen (by decide)
        · exfalso
          apply he
          rw [List.isEmpty_iff, List.flatten_eq_nil_iff]
          intro l hl
          rcases List.mem_map.1 hl with ⟨sh, hsh, hsheq⟩
          rw [← hsheq]
          exact hall sh hsh

/-- The cleaned gender value as a function of the raw gender string: blank or
`nan` strings null out during null normalization, anything else is matched
case-insensitively after strip/title-casing. -/
theorem validate_gender_eq (pdate : String → Option Int) (r : Record) (g : String)
    (h : lookupR r "gender" = some (Val.str g)) :
    dgetR (validateAndCleanRecord pdate r) "gender" =
      if g = "nan" ∨ stripS g = "" then Val.null
      else if upperS (stripS g) = "M" ∨ upperS (stripS g) = "MALE" then Val.str "Male"
      else if upperS (stripS g) = "F" ∨ upperS (stripS g) = "FEMALE" then Val.str "Female"
      else if upperS (stripS g) = "OTHER" then Val.str "Other"
      else Val.null := by
  have h1 : lookupR (r.map (fun p => (p.1, nullNorm p.2))) "gender"
      = some (nullNorm (Val.str g)) := by
    rw [lookupR_mapval, h]
    rfl
  unfold validateAndCleanRecord
  dsimp only
  by_cases hnn : g = "nan" ∨ stripS g = ""
  · rw [if_pos hnn]
    have h1' : lookupR (r.map (fun p => (p.1, nullNorm p.2))) "gender" = some Val.null := by
      rw [h1]
      unfold nullNorm
      dsimp only
      rw [if_pos hnn]
    have h2 : lookupR (dateFields.foldl (dateStep pdate) (r.map (fun p => (p.1, nullNorm p.2))))
        "gender" = some Val.null := by
      rw [dateFold_pres pdate _ _ (by decide) (by decide) (by decide) (by decide)]
      exact h1'
    simp only [textFields, List.foldl_cons, List.foldl_nil]
    rw [textStep_null_of _ _ h2]
    have h3 : lookupR (idStep (idStep (textStep (textStep (textStep (textStep
        (dateFields.foldl (dateStep pdate) (r.map (fun p => (p.1, nullNorm p.2))))
        "mode_of_delivery") "child_name") "father_name") "mother_name") "ip_number")
        "birth_notification_no") "gender" = some Val.null := by
      rw [idStep_pres _ _ _ (by decide), idStep_pres _ _ _ (by decide),
          textStep_pres _ _ _ (by decide), textStep_pres _ _ _ (by decide),
          textStep_pres _ _ _ (by decide), textStep_pres _ _ _ (by decide)]
      exact h2
    unfold dgetR
    rw [genderStep_of_null _ h3, h3]
    rfl
  · rw [if_neg hnn]
    have hg' : nullNorm (Val.str g) = Val.str g := by
      unfold nullNorm
      dsimp only
      rw [if_neg hnn]
    have h1' : lookupR (r.map (fun p => (p.1, nullNorm p.2))) "gender" = some (Val.str g) := by
      rw [h1, hg']
    have h2 : lookupR (dateFields.foldl (dateStep pdate) (r.map (fun p => (p.1, nullNorm p.2))))
        "gender" = some (Val.str g) := by
      rw [dateFold_pres pdate _ _ (by decide) (by decide) (by decide) (by decide)]
      exact h1'
    simp only [textFields, List.foldl_cons, List.foldl_nil]
    have h3 : lookupR (textStep (dateFields.foldl (dateStep pdate)
        (r.map (fun p => (p.1, nullNorm p.2)))) "gender") "gender"
        = some (Val.str (titleS (stripS g))) := by
      have hx := textStep_self_of_some _ "gender" (Val.str g) h2 (by simp) (by decide)
      simpa [pyStr] using hx
    have h4 : lookupR (idStep (idStep (textStep (textStep (textStep (textStep (textStep
        (dateFields.foldl (dateStep pdate) (r.map (fun p => (p.1, nullNorm p.2)))) "gender")
        "mode_of_delivery") "child_name") "father_name") "mother_name") "ip_number")
        "birth_notification_no") "gender" = some (Val.str (titleS (stripS g))) := by
      rw [idStep_pres _ _ _ (by decide), idStep_pres _ _ _ (by decide),
          textStep_pres _ _ _ (by decide), textStep_pres _ _ _ (by decide),
          textStep_pres _ _ _ (by decide), textStep_pres _ _ _ (by decide)]
      exact h3
    have hstrip : stripS g ≠ "" := fun hc => hnn (Or.inr hc)
    have htd : (titleS (stripS g)).data ≠ [] :=
      titleS_data_ne_nil _ (str_ne_empty_data _ hstrip)
    rw [genderStep_of_str _ _ h4 htd, upperS_titleS]
    by_cases c1 : upperS (stripS g) = "M" ∨ upperS (stripS g) = "MALE"
    · rw [if_pos c1, if_pos c1]
      unfold dgetR
      rw [lookupR_dsetR_of_some _ _ _ _ h4]
      rfl
    · rw [if_neg c1, if_neg c1]
      by_cases c2 : upperS (stripS g) = "F" ∨ upperS (stripS g) = "FEMALE"
      · rw [if_pos c2, if_pos c2]
        unfold dgetR
        rw [lookupR_dsetR_of_some _ _ _ _ h4]
        rfl
      · rw [if_neg c2, if_neg c2]
        by_cases c3 : upperS (stripS g) = "OTHER"
        · rw [if_pos c3, if_pos c3]
          unfold dgetR
          rw [lookupR_dsetR_of_some _ _ _ _ h4]
          rfl
        · rw [if_neg c3, if_neg c3]
          unfold dgetR
          rw [lookupR_dsetR_of_some _ _ _ _ h4]
          rfl

/-- C4: for a record whose gender cell is a string, case-insensitive `m` or
`male` yields `Male`, `f` or `female` yields `Female`, `other` yields `Other`,
and every other value — including blank strings — yields null, the same null
policy for all unrecognized inputs. -/
theorem C4_gender_normalization (pdate : String → Option Int) (r : Record) (g : String)
    (h : lookupR r "gender" = some (Val.str g)) :
    ((upperS (stripS g) = "M" ∨ upperS (stripS g) = "MALE") →
      dgetR (validateAndCleanRecord pdate r) "gender" = Val.str "Male") ∧
    ((upperS (stripS g) = "F" ∨ upperS (stripS g) = "FEMALE") →
      dgetR (validateAndCleanRecord pdate r) "gender" = Val.str "Female") ∧
    (upperS (stripS g) = "OTHER" →
      dgetR (validateAndCleanRecord pdate r) "gender" = Val.str "Other") ∧
    (upperS (stripS g) ≠ "M" → upperS (stripS g) ≠ "MALE" → upperS (stripS g) ≠ "F" →
      upperS (stripS g) ≠ "FEMALE" → upperS (stripS g) ≠ "OTHER" →
      dgetR (validateAndCleanRecord pdate r) "gender" = Val.null) := by
  rw [validate_gender_eq pdate r g h]
  by_cases hnn : g = "nan" ∨ stripS g = ""
  · rw [if_pos hnn]
    have hu : upperS (stripS g) = "NAN" ∨ upperS (stripS g) = "" := by
      rcases hnn with h1 | h2
      · left
        rw [h1]
        decide
      · right
        rw [h2]
        decide
    refine ⟨?_, ?_, ?_, fun _ _ _ _ _ => rfl⟩
    · intro hm
      rcases hu with hv | hv <;> rw [hv] at hm <;> exact absurd hm (by decide)
    · intro hm
      rcases hu with hv | hv <;> rw [hv] at hm <;> exact absurd hm (by decide)
    · intro hm
      rcases hu with hv | hv <;> rw [hv] at hm <;> exact absurd hm (by decide)
  · rw [if_neg hnn]
    refine ⟨?_, ?_, ?_, ?_⟩
    · intro c1
      rw [if_pos c1]
    · intro c2
      have c1 : ¬(upperS (stripS g) = "M" ∨ upperS (stripS g) = "MALE") := by
        intro hc
        rcases c2 with h2 | h2 <;> rcases hc with h1 | h1 <;> rw [h2] at h1 <;>
          exact absurd h1 (by decide)
      rw [if_neg c1, if_pos c2]
    · intro c3
      have c1 : ¬(upperS (stripS g) = "M" ∨ upperS (stripS g) = "MALE") := by
        intro hc
        rcases hc with h1 | h1 <;> rw [c3] at h1 <;> exact absurd h1 (by decide)
      have c2 : ¬(upperS (stripS g) = "F" ∨ upperS (stripS g) = "FEMALE") := by
        intro hc
        rcases hc with h1 | h1 <;> rw [c3] at h1 <;> exact absurd h1 (by decide)
      rw [if_neg c1, if_neg c2, if_pos c3]
    · intro n1 n2 n3 n4 n5
      rw [if_neg (fun hc => hc.elim n1 n2), if_neg (fun hc => hc.elim n3 n4), if_neg n5]

/-- C4, witness: the gender theorem applied to concrete records carrying
`"m"` (normalized to `Male`) and `"X"` (normalized to null). -/
theorem C4_witness :
    dgetR (validateAndCleanRecord pdNone [("gender", Val.str "m")]) "gender" = Val.str "Male" ∧
    dgetR (validateAndCleanRecord pdNone [("gender", Val.str "X")]) "gender" = Val.null :=
  ⟨(C4_gender_normalization pdNone [("gender", Val.str "m")] "m" (by decide)).1
      (Or.inl (by decide)),
   (C4_gender_normalization pdNone [("gender", Val.str "X")] "X" (by decide)).2.2.2
      (by decide) (by decide) (by decide) (by decide) (by decide)⟩

theorem map_getD_of_getD (f : String → String) (ls : List String) (i : Nat) (a : String)
    (ha : ls.getD i "" = a) (hne : a ≠ "") : (ls.map f).getD i "" = f a := by
  rw [List.getD_eq_getElem?_getD] at ha ⊢
  rw [List.getElem?_map]
  cases hl : ls[i]? with
  | none =>
    rw [hl] at ha
    exact absurd ha (fun hh => hne hh.symm)
  | some x =>
    rw [hl] at ha
    simp at ha
    rw [ha]
    rfl

/-- C5, amended: headerless-data detection applies only when the earlier
row-0-as-header method has not already claimed the sheet.  Under that proviso,
a sheet whose row 0 holds at least 2 date-typed cells and at least 1 numeric
cell is classified as headerless data (`data_as_first_row`): the canonical
11 names are assigned positionally, padded with synthetic `extra_column_i`
names, and all rows — row 0 included — remain data. -/
theorem C5_headerless_detection (g : Grid) (r0 : List Val) (rest : List (List Val))
    (hg : g = r0 :: rest) (hm1 : tryHeaderRowK g 0 = none)
    (hdc : 2 ≤ countDates r0) (hnc : 1 ≤ countNums r0) :
    headerResolve g = some ⟨canonPad (gridWidth g), g, "data_as_first_row"⟩ := by
  unfold headerResolve
  rw [hm1]
  unfold detectAndParseData
  subst hg
  dsimp only
  rw [if_pos (by simp [hdc, hnc])]

/-- C5, counterexample: the sheet `c5Grid` satisfies the claim's trigger
(row 0 holds 2 dates and 1 number) yet header resolution consumes row 0 as a
header (`header_row_0`), because row 0 also has 3 meaningful text cells —
refuting the claim that the trigger alone forces headerless classification. -/
theorem C5_counterexample :
    2 ≤ countDates c5Grid.headI ∧ 1 ≤ countNums c5Grid.headI ∧
    (headerResolve c5Grid).map Frame.method = some "header_row_0" := by
  refine ⟨by decide, by decide, by decide⟩

/-- C5, witness: the amended theorem applied to the concrete headerless sheet
`c1Grid`, whose single row defeats the row-0-as-header test. -/
theorem C5_witness :
    headerResolve c1Grid = some ⟨canonPad (gridWidth c1Grid), c1Grid, "data_as_first_row"⟩ :=
  C5_headerless_detection c1Grid c1Row [] rfl (by decide) (by decide) (by decide)

/-- C6: any column labeled exactly `IP. NO` is mapped by normalization plus
the synonym table to `ip_number`; likewise `Sex` to `gender` and `DOB` to
`date_of_birth`, at whatever position the label occurs in the frame. -/
theorem C6_synonym_mapping (ls : List String) (i : Nat) :
    (ls.getD i "" = "IP. NO" →
      (ls.map (fun l => applySynonym (normalizeLabel l))).getD i "" = "ip_number") ∧
    (ls.getD i "" = "Sex" →
      (ls.map (fun l => applySynonym (normalizeLabel l))).getD i "" = "gender") ∧
    (ls.getD i "" = "DOB" →
      (ls.map (fun l => applySynonym (normalizeLabel l))).getD i "" = "date_of_birth") := by
  refine ⟨fun hl => ?_, fun hl => ?_, fun hl => ?_⟩
  · rw [map_getD_of_getD _ ls i _ hl (by decide)]
    decide
  · rw [map_getD_of_getD _ ls i _ hl (by decide)]
    decide
  · rw [map_getD_of_getD _ ls i _ hl (by decide)]
    decide

/-- C6, witness: the synonym theorem applied to the concrete label list
`["IP. NO", "Sex", "DOB"]` at positions 0, 1 and 2. -/
theorem C6_witness :
    ((["IP. NO", "Sex", "DOB"].map (fun l => applySynonym (normalizeLabel l))).getD 0 ""
      = "ip_number") ∧
    ((["IP. NO", "Sex", "DOB"].map (fun l => applySynonym (normalizeLabel l))).getD 1 ""
      = "gender") ∧
    ((["IP. NO", "Sex", "DOB"].map (fun l => applySynonym (normalizeLabel l))).getD 2 ""
      = "date_of_birth") :=
  ⟨(C6_synonym_mapping ["IP. NO", "Sex", "DOB"] 0).1 (by decide),
   (C6_synonym_mapping ["IP. NO", "Sex", "DOB"] 1).2.1 (by decide),
   (C6_synonym_mapping ["IP. NO", "Sex", "DOB"] 2).2.2 (by decide)⟩

/-- C8, amended: every output record of `parse_excel_file` contains the keys
`child_name`, `mother_name` and `birth_notification_no` (the completeness
gate guarantees them); the full 11-canonical-key shape is not guaranteed —
a record's keys mirror its sheet's final column labels, so other canonical
fields can be absent and extra non-canonical keys can be present. -/
theorem C8_record_keys (pdate : String → Option Int) (wb : Workbook)
    (rs : List Record) (r : Record)
    (hok : parseExcelFile pdate wb = .ok rs) (hr : r ∈ rs) :
    "child_name" ∈ keysR r ∧ "mother_name" ∈ keysR r
      ∧ "birth_notification_no" ∈ keysR r := by
  rcases mem_parse pdate wb rs r hok hr with ⟨ls, row, hrow⟩
  obtain ⟨⟨s1, hs1, _⟩, ⟨s2, hs2, _⟩, ⟨s3, hs3, _⟩⟩ := emitted_fields pdate ls row r hrow
  refine ⟨?_, ?_, ?_⟩
  · exact mem_keys_of_lookup_some r _ _ (by
      have hx := lookup_of_dget_ne_null r "child_name" (by rw [hs1]; simp)
      exact hx)
  · exact mem_keys_of_lookup_some r _ _ (by
      have hx := lookup_of_dget_ne_null r "mother_name" (by rw [hs2]; simp)
      exact hx)
  · exact mem_keys_of_lookup_some r _ _ (by
      have hx := lookup_of_dget_ne_null r "birth_notification_no" (by rw [hs3]; simp)
      exact hx)

/-- C8, counterexample: the 4-column workbook `c8Workbook` emits a record
whose key set is `[child_name, mother_name, birth_notification_no,
random_stuff_col]` — 8 canonical fields are absent and an extra non-canonical
key is present, refuting the exactly-11-canonical-keys claim. -/
theorem C8_counterexample :
    parseExcelFile pdNone c8Workbook = .ok [c8Rec] ∧
    keysR c8Rec = ["child_name", "mother_name", "birth_notification_no",
      "random_stuff_col"] ∧
    keysR c8Rec ≠ expectedColumns := by
  refine ⟨rfl, by decide, by decide⟩

/-- C8, witness: the amended theorem applied to the concrete workbook
`c8Workbook` and its single output record. -/
theorem C8_witness :
    "child_name" ∈ keysR c8Rec ∧ "mother_name" ∈ keysR c8Rec
      ∧ "birth_notification_no" ∈ keysR c8Rec :=
  C8_record_keys pdNone c8Workbook [c8Rec] c8Rec rfl (by decide)

theorem find_rev_unique (ps : List (String × String)) (k : String)
    (hnd : (ps.map Prod.fst).Nodup) (p : String × String) (hp : p ∈ ps) (hk : p.1 = k) :
    ps.reverse.find? (fun q => q.1 == k) = some p := by
  induction ps with
  | nil => simp at hp
  | cons a t ih =>
    rw [List.reverse_cons, List.find?_append]
    rcases List.mem_cons.1 hp with rfl | hpt
    · have hkeys : ∀ q ∈ t, ¬ (q.1 == k) = true := by
        intro q hq hqk
        have hq1 : q.1 = k := by simpa using hqk
        have : p.1 ∈ t.map Prod.fst := by
          rw [hk, ← hq1]
          exact List.mem_map_of_mem _ hq
        exact (List.nodup_cons.1 hnd).1 this
      have hnone : t.reverse.find? (fun q => q.1 == k) = none := by
        rw [List.find?_eq_none]
        intro q hq
        exact hkeys q (List.mem_reverse.1 hq)
      rw [hnone]
      simp [List.find?, hk]
    · have hsome : t.reverse.find? (fun q => q.1 == k) = some p :=
        ih (List.nodup_cons.1 hnd).2 hpt
      rw [hsome]
      rfl

theorem posRename_nodup (ls : List String) (hnd : ls.Nodup) (hlen : ls.length = 11) :
    posRename ls = expectedColumns := by
  unfold posRename
  rw [List.take_of_length_le (le_of_eq hlen)]
  apply List.ext_getElem
  · simpa [hlen] using (by decide : expectedColumns.length = 11).symm
  · intro i h1 h2
    have he11 : expectedColumns.length = 11 := by decide
    have h2' : i < 11 := he11 ▸ h2
    have hil : i < ls.length := by
      rw [hlen]
      exact h2'
    rw [List.getElem_map]
    unfold posLookup
    have hmem : (ls[i], expectedColumns[i]) ∈ ls.zip expectedColumns := by
      have hi : i < (ls.zip expectedColumns).length := by
        rw [List.length_zip, hlen, he11]
        simpa using h2'
      have hz := @List.getElem_zip _ _ ls expectedColumns i hi
      rw [← hz]
      exact List.getElem_mem hi
    have hkeys : ((ls.zip expectedColumns).map Prod.fst).Nodup := by
      rw [List.map_fst_zip]
      · exact hnd
      · rw [hlen]
        decide
    have hfind := find_rev_unique (ls.zip expectedColumns) (ls[i]) hkeys _ hmem rfl
    rw [hfind]

theorem sniffStep_inert (rows : Grid) (cur : List String) (p : Nat × String)
    (hp : p.2 ∈ expectedColumns) : sniffStep rows cur p = cur := by
  unfold sniffStep
  dsimp only
  rw [if_pos hp]

theorem sniffAll_inert (rows : Grid) (ls : List String)
    (h : ∀ l ∈ ls, l ∈ expectedColumns) : sniffAll rows ls = ls := by
  unfold sniffAll
  have aux : ∀ (ps : List (Nat × String)) (cur : List String),
      (∀ p ∈ ps, p.2 ∈ expectedColumns) → ps.foldl (sniffStep rows) cur = cur := by
    intro ps
    induction ps with
    | nil => intro cur _; rfl
    | cons a t ih =>
      intro cur hall
      rw [List.foldl_cons, sniffStep_inert rows cur a (hall a (by simp))]
      exact ih cur (fun p hp => hall p (by simp [hp]))
  apply aux
  intro p hp
  exact h p.2 (List.snd_mem_of_mem_enumFrom (by simpa [List.enum] using hp))

theorem foldl_dinsR_fresh (ps : List (String × Val)) :
    ∀ (acc : Record), (ps.map Prod.fst).Nodup →
    (∀ p ∈ ps, ∀ q ∈ acc, q.1 ≠ p.1) →
    ps.foldl (fun d p => dinsR d p.1 p.2) acc = acc ++ ps := by
  induction ps with
  | nil =>
    intro acc _ _
    simp
  | cons a t ih =>
    intro acc hnd hfresh
    rw [List.foldl_cons]
    have hany : ¬ (acc.any (fun p => p.1 == a.1) = true) := by
      intro hc
      rcases List.any_eq_true.1 hc with ⟨q, hq, hqe⟩
      exact hfresh a (List.mem_cons_self a t) q hq (by simpa using hqe)
    have hins : dinsR acc a.1 a.2 = acc ++ [a] := by
      unfold dinsR
      rw [if_neg hany]
    rw [hins, ih (acc ++ [a]) (List.nodup_cons.1 hnd).2 ?_, List.append_assoc]
    · rfl
    · intro p hp q hq
      rcases List.mem_append.1 hq with hq | hq
      · exact hfresh p (List.mem_cons_of_mem a hp) q hq
      · have hqa : q = a := by simpa using hq
        subst hqa
        intro hqe
        apply (List.nodup_cons.1 hnd).1
        rw [hqe]
        exact List.mem_map_of_mem Prod.fst hp

theorem rowToDict_eq_zip (ls : List String) (row : List Val)
    (hnd : ((ls.zip row).map Prod.fst).Nodup) :
    rowToDict ls row = ls.zip row := by
  unfold rowToDict
  have hx := foldl_dinsR_fresh (ls.zip row) [] hnd (by intro p _ q hq; simp at hq)
  simpa using hx

theorem rowToDict_mother_at2 (row : List Val) (h : row.length = 11) :
    dgetR (rowToDict expectedColumns row) "mother_name" = row.getD 2 Val.null := by
  have hz : rowToDict expectedColumns row = expectedColumns.zip row := by
    apply rowToDict_eq_zip
    rw [List.map_fst_zip]
    · decide
    · rw [h]
      decide
  rw [hz]
  rcases row with _ | ⟨v0, row⟩
  · simp only [List.length_nil] at h
    omega
  rcases row with _ | ⟨v1, row⟩
  · simp only [List.length_nil, List.length_cons] at h
    omega
  rcases row with _ | ⟨v2, row⟩
  · simp only [List.length_nil, List.length_cons] at h
    omega
  rfl

/-- C7, amended: the positional tier is a rename keyed on the existing labels
of the first 11 columns (a dict literal, so for duplicated labels the
right-most canonical assignment wins); it coincides with strict left-to-right
positional assignment exactly when the (normalized, synonym-mapped) labels
are pairwise distinct.  In that case, for an 11-column frame triggering the
tier, the cleaned frame carries the canonical names and every surviving row's
`mother_name` is the 3rd column's value.  With duplicated labels the strict
claim fails and the frame can yield no records (see the counterexample). -/
theorem C7_positional_mapping (m : String) (lsv : List Val) (rows : Grid)
    (hlen : ((lsv.map (fun v => normalizeLabel (pyStr v))).map applySynonym).length = 11)
    (hnd : ((lsv.map (fun v => normalizeLabel (pyStr v))).map applySynonym).Nodup)
    (htrig : (requiredFields.any
        (fun f => f ∉ (lsv.map (fun v => normalizeLabel (pyStr v))).map applySynonym)
      || nonMeaningfulHeaders ((lsv.map (fun v => normalizeLabel (pyStr v))).map applySynonym))
      = true)
    (hrows : ∀ row ∈ rows, row.length = 11)
    (hne : ¬ (rows.filter (fun r => r.any (fun v => v != Val.null))).isEmpty = true) :
    cleanFrame ⟨lsv, rows, m⟩
      = some (expectedColumns, rows.filter (fun r => r.any (fun v => v != Val.null))) ∧
    ∀ row ∈ rows.filter (fun r => r.any (fun v => v != Val.null)),
      dgetR (rowToDict expectedColumns row) "mother_name" = row.getD 2 Val.null := by
  constructor
  · unfold cleanFrame
    dsimp only
    rw [if_pos htrig, if_pos (le_of_eq hlen.symm), posRename_nodup _ hnd hlen,
        if_neg (by decide : ¬ (requiredFields.any (fun f => f ∉ expectedColumns) = true))]
    dsimp only
    rw [sniffAll_inert rows expectedColumns (fun l hl => hl), if_neg hne]
  · intro row hrow
    exact rowToDict_mother_at2 row (hrows row (List.mem_filter.1 hrow).1)

/-- C7, counterexample: the frame `c7Frame` has 11 columns, misses every
required field after the synonym tier, and has a usable non-empty row, yet
`clean_and_standardize_dataframe` returns nothing: its label-keyed positional
dict sends both `x`-labelled columns (positions 2 and 9) to `father_name`,
so `mother_name` is never assigned — refuting strict positional assignment
(which would populate `mother_name` from the 3rd column and emit the row). -/
theorem C7_counterexample :
    c7Frame.labels.length = 11 ∧
    (requiredFields.any (fun f =>
      f ∉ (c7Frame.labels.map (fun v => normalizeLabel (pyStr v))).map applySynonym)) = true ∧
    (c7Frame.rows.filter (fun r => r.any (fun v => v != Val.null))) ≠ [] ∧
    cleanFrame c7Frame = none := by
  refine ⟨by decide, by decide, by decide, by decide⟩

/-- C7, witness: the amended theorem applied to a frame of 11 digit-labelled
columns (pairwise distinct, triggering the positional tier) with one data
row. -/
theorem C7_witness :
    cleanFrame ⟨c7wLabels, c7wRows, "assumed_headers_from_row_0"⟩
      = some (expectedColumns, c7wRows.filter (fun r => r.any (fun v => v != Val.null))) ∧
    ∀ row ∈ c7wRows.filter (fun r => r.any (fun v => v != Val.null)),
      dgetR (rowToDict expectedColumns row) "mother_name" = row.getD 2 Val.null :=
  C7_positional_mapping "assumed_headers_from_row_0" c7wLabels c7wRows
    (by decide) (by decide) (by decide) (by decide) (by decide)
